import Mathlib

/-!
Shallow embedding of `hotel_booking.py` (single-hotel room booking domain model).

Modelling conventions:
* Python floats (prices, budgets) are modelled as exact rationals `ℚ`.
* Python ints (nights, guests, loyalty points, max_guests) are modelled as `Int`;
  room numbers as `Nat`.
* `datetime.now()` is injected: the calendar month (for the season) and a
  timestamp value are explicit parameters of the operations that read the clock,
  as the source resolves the season at call time.
* Python exceptions (`ValueError`) are modelled as `Except String`, carrying the
  source's message.
* Python mutation is modelled by returning updated copies of the mutated
  objects.  The rooms stored in a customer's `booked_rooms` list are aliases of
  the hotel's room objects (Python references, compared by identity); since the
  hotel enforces uniqueness of room numbers and all rooms a customer ever holds
  come from the hotel, a reference is modelled by the room's number.
-/

/-- The four seasons used by the pricing table. -/
inductive Season where
  | winter
  | spring
  | summer
  | fall
deriving DecidableEq, Repr

/-- Source `SEASON_MULTIPLIERS`: the fixed season → multiplier table of the source. -/
def SEASON_MULTIPLIERS : Season → ℚ
  | .winter => 8/10
  | .spring => 1
  | .summer => 13/10
  | .fall => 11/10

/-- The month-indexed season list of `get_current_season` (index = month - 1). -/
def seasonTable : List Season :=
  [.winter, .winter, .spring, .spring, .spring,
   .summer, .summer, .summer, .fall, .fall, .fall, .winter]

/-- Source `get_current_season`, with the wall-clock month (1–12) injected.  The source
indexes the table with `datetime.now().month - 1`, which is always in range; the
default is never used for months 1–12. -/
def get_current_season (month : Nat) : Season :=
  seasonTable.getD (month - 1) .winter

/-- A `Room` object. -/
structure Room where
  room_number : Nat
  room_type : String
  price_per_night : ℚ
  is_available : Bool
  max_guests : Int
deriving DecidableEq, Repr

/-- Source `Room.__init__`: validates type, price and capacity, starts available. -/
def Room.init (room_number : Nat) (room_type : String) (price_per_night : ℚ)
    (max_guests : Int) : Except String Room :=
  if room_type ≠ "Single" ∧ room_type ≠ "Double" then
    .error "room type must be 'Single' or 'Double'"
  else if price_per_night ≤ 0 then
    .error "price must be positive"
  else if max_guests ≤ 0 then
    .error "max guests must be positive"
  else
    .ok ⟨room_number, room_type, price_per_night, true, max_guests⟩

/-- Source `Room.book_room`: raises if unavailable, else clears the flag. -/
def Room.book_room (r : Room) : Except String Room :=
  if r.is_available = false then
    .error "room is not available"
  else
    .ok { r with is_available := false }

/-- Source `Room.release_room`: unconditionally sets the flag. -/
def Room.release_room (r : Room) : Room :=
  { r with is_available := true }

/-- Source `Room.calculate_price`: raises for `nights ≤ 0`, else
`price_per_night * multiplier * nights`.  The current season is injected. -/
def Room.calculate_price (r : Room) (season : Season) (nights : Int) :
    Except String ℚ :=
  if nights ≤ 0 then
    .error "nights must be positive"
  else
    .ok (r.price_per_night * SEASON_MULTIPLIERS season * (nights : ℚ))

/-- Python's `str.strip()`: drop leading and trailing whitespace.  Written on
the character list so that Lean source evaluates by kernel reduction. -/
def strip (str : String) : String :=
  ⟨((str.data.dropWhile Char.isWhitespace).reverse.dropWhile
      Char.isWhitespace).reverse⟩

/-- A `Customer` object.  `booked_rooms` holds references to hotel rooms,
modelled by their (hotel-unique) room numbers. -/
structure Customer where
  name : String
  budget : ℚ
  booked_rooms : List Nat
  loyalty_points : Int
deriving DecidableEq, Repr

/-- Source `Customer.__init__`: rejects blank names and non-positive budgets. -/
def Customer.init (name : String) (budget : ℚ) : Except String Customer :=
  if name = "" ∨ strip name = "" then
    .error "name cannot be empty"
  else if budget ≤ 0 then
    .error "budget must be positive"
  else
    .ok ⟨name, budget, [], 0⟩

/-- Source `Customer.add_room`: appends the room reference (the `isinstance` check is
vacuous in the typed model). -/
def Customer.add_room (c : Customer) (room : Room) : Customer :=
  { c with booked_rooms := c.booked_rooms ++ [room.room_number] }

/-- Source `Customer.remove_room`: `list.remove` removes the first matching reference
and raises when absent. -/
def Customer.remove_room (c : Customer) (room : Room) : Except String Customer :=
  if room.room_number ∈ c.booked_rooms then
    .ok { c with booked_rooms := c.booked_rooms.erase room.room_number }
  else
    .error "list.remove(x): x not in list"

/-- Source `Customer.pay_for_booking`: raises for non-positive price; if affordable,
deducts the price and awards `int(total_price / 100)` loyalty points (equal to
the floor, as the price is positive here); otherwise returns `false` unchanged. -/
def Customer.pay_for_booking (c : Customer) (total_price : ℚ) :
    Except String (Customer × Bool) :=
  if total_price ≤ 0 then
    .error "total_price must be positive"
  else if total_price ≤ c.budget then
    .ok ({ c with
            budget := c.budget - total_price,
            loyalty_points := c.loyalty_points + Int.floor (total_price / 100) },
         true)
  else
    .ok (c, false)

/-- One entry of the hotel's booking log (`Hotel.log_booking`); the timestamp is
the injected clock value. -/
structure LogEntry where
  timestamp : Nat
  customer : String
  room_number : Nat
  room_type : String
  nights : Int
  total_price : ℚ
  season : Season
deriving DecidableEq, Repr

/-- Python's `round(x, 2)` (round half to even on the exact value). -/
def round2 (x : ℚ) : ℚ :=
  let y : ℚ := x * 100
  let n : ℤ := Int.floor y
  let f : ℚ := y - (n : ℚ)
  let r : ℤ :=
    if f < 1/2 then n
    else if 1/2 < f then n + 1
    else if n % 2 = 0 then n else n + 1
  (r : ℚ) / 100

/-- A `Hotel` object. -/
structure Hotel where
  name : String
  rooms : List Room
  bookings_log : List LogEntry
deriving DecidableEq, Repr

/-- Source `Hotel.__init__`. -/
def Hotel.init (name : String) : Except String Hotel :=
  if name = "" ∨ strip name = "" then
    .error "name cannot be empty"
  else
    .ok ⟨name, [], []⟩

/-- Source `Hotel.add_room`: rejects a duplicate room number, else appends. -/
def Hotel.add_room (h : Hotel) (room : Room) : Except String Hotel :=
  if h.rooms.any (fun r => r.room_number == room.room_number) then
    .error "room already exists"
  else
    .ok { h with rooms := h.rooms ++ [room] }

/-- Source `Hotel.show_available_rooms` (optional type filter). -/
def Hotel.show_available_rooms (h : Hotel) (room_type : Option String) :
    Except String (List Room) :=
  let available := h.rooms.filter (fun r => r.is_available)
  match room_type with
  | none => .ok available
  | some t =>
    if t ≠ "Single" ∧ t ≠ "Double" then
      .error "room type must be 'Single' or 'Double'"
    else
      .ok (available.filter (fun r => r.room_type == t))

/-- The loop of `Hotel._find_room`: first room with the given number. -/
def findRoomIn : List Room → Nat → Except String Room
  | [], _ => .error "room not found"
  | r :: rs, n => if r.room_number = n then .ok r else findRoomIn rs n

/-- Source `Hotel._find_room`. -/
def Hotel.find_room (h : Hotel) (room_number : Nat) : Except String Room :=
  findRoomIn h.rooms room_number

/-- In-place mutation of the room object found by `_find_room`, modelled as
replacing the first room with that number (the hotel keeps numbers unique, so
the first match is the only one). -/
def updateRoomIn : List Room → Nat → Room → List Room
  | [], _, _ => []
  | r :: rs, n, r2 =>
    if r.room_number = n then r2 :: rs else r :: updateRoomIn rs n r2

/-- Replace the hotel's room numbered `n` by `r2`. -/
def Hotel.set_room (h : Hotel) (n : Nat) (r2 : Room) : Hotel :=
  { h with rooms := updateRoomIn h.rooms n r2 }

/-- Source `Hotel.calculate_total_booking`: look up the room, delegate to its pricing. -/
def Hotel.calculate_total_booking (h : Hotel) (room_number : Nat) (nights : Int)
    (season : Season) : Except String ℚ :=
  match h.find_room room_number with
  | .error e => .error e
  | .ok room => room.calculate_price season nights

/-- Source `Hotel.log_booking`: appends one entry with the rounded total price. -/
def Hotel.log_booking (h : Hotel) (c : Customer) (room : Room) (total_price : ℚ)
    (nights : Int) (season : Season) (time : Nat) : Hotel :=
  { h with bookings_log := h.bookings_log ++
      [⟨time, c.name, room.room_number, room.room_type, nights,
        round2 total_price, season⟩] }

/-- Source `Hotel.book_room_for_customer`: the booking transaction.  Returns the
updated hotel and customer together with the Python return value. -/
def Hotel.book_room_for_customer (h : Hotel) (c : Customer) (room_number : Nat)
    (nights guests : Int) (season : Season) (time : Nat) :
    Except String (Hotel × Customer × Bool) :=
  if nights ≤ 0 then .error "nights must be positive"
  else if guests ≤ 0 then .error "guests must be positive"
  else
    match h.find_room room_number with
    | .error e => .error e
    | .ok room =>
      if room.is_available = false then
        .ok (h, c, false)
      else if room.max_guests < guests then
        .ok (h, c, false)
      else
        match h.calculate_total_booking room_number nights season with
        | .error e => .error e
        | .ok total_price =>
          match c.pay_for_booking total_price with
          | .error e => .error e
          | .ok (c2, paid) =>
            if paid = false then
              .ok (h, c2, false)
            else
              match room.book_room with
              | .error e => .error e
              | .ok room2 =>
                let c3 := c2.add_room room2
                let h2 := (h.set_room room.room_number room2).log_booking
                  c3 room2 total_price nights season time
                .ok (h2, c3, true)

/-- Source `Hotel.cancel_booking`: releases the room and removes it from the
customer's list; raises when the room is absent or not booked by the customer. -/
def Hotel.cancel_booking (h : Hotel) (c : Customer) (room_number : Nat) :
    Except String (Hotel × Customer) :=
  match h.find_room room_number with
  | .error e => .error e
  | .ok room =>
    if room.room_number ∈ c.booked_rooms then
      match c.remove_room room with
      | .error e => .error e
      | .ok c2 => .ok (h.set_room room.room_number room.release_room, c2)
    else
      .error "customer has no booking for room"

/-! ## System-level transition model

A whole-system state (one hotel, a list of customers) and the public
operations, for reachability invariants. -/

/-- State of the whole system: the hotel and the customers. -/
structure SysState where
  hotel : Hotel
  customers : List Customer
deriving DecidableEq, Repr

/-- One public operation.  A customer is addressed by its index.  Rooms are
added through the `Room` constructor (as in the source, where every hotel room
comes from `Room.__init__`). -/
inductive Op where
  | addRoom (room_number : Nat) (room_type : String) (price_per_night : ℚ)
      (max_guests : Int)
  | book (ci : Nat) (room_number : Nat) (nights guests : Int) (season : Season)
      (time : Nat)
  | cancel (ci : Nat) (room_number : Nat)
deriving DecidableEq, Repr

/-- Apply one operation.  A raised exception propagates before any state
mutation in the source (the transaction's mutations cannot raise midway), so an
erroring operation leaves the state unchanged. -/
def applyOp (s : SysState) (op : Op) : SysState :=
  match op with
  | .addRoom num ty price mg =>
    match Room.init num ty price mg with
    | .error _ => s
    | .ok room =>
      match s.hotel.add_room room with
      | .error _ => s
      | .ok h2 => { s with hotel := h2 }
  | .book ci n nights guests season time =>
    match s.customers.get? ci with
    | none => s
    | some c =>
      match s.hotel.book_room_for_customer c n nights guests season time with
      | .error _ => s
      | .ok (h2, c2, _) => ⟨h2, s.customers.set ci c2⟩
  | .cancel ci n =>
    match s.customers.get? ci with
    | none => s
    | some c =>
      match s.hotel.cancel_booking c n with
      | .error _ => s
      | .ok (h2, c2) => ⟨h2, s.customers.set ci c2⟩

/-- Run a list of operations. -/
def runOps (s : SysState) : List Op → SysState
  | [] => s
  | op :: ops => runOps (applyOp s op) ops

/-- A freshly constructed customer (`Customer.__init__` after its checks). -/
def freshCustomer (p : String × ℚ) : Customer :=
  ⟨p.1, p.2, [], 0⟩

/-- A freshly constructed system: a hotel with no rooms and freshly constructed
customers. -/
def initState (hotel_name : String) (cs : List (String × ℚ)) : SysState :=
  ⟨⟨hotel_name, [], []⟩, cs.map freshCustomer⟩

/-- How many references to room number `n` exist across all customers. -/
def bookedCount (customers : List Customer) (n : Nat) : Nat :=
  (customers.map (fun c => c.booked_rooms.count n)).sum

/-- The inductive invariant of the system: room numbers are unique, a room is
referenced exactly once when unavailable and never when available, and only
existing rooms are referenced. -/
def SysInv (s : SysState) : Prop :=
  (s.hotel.rooms.map Room.room_number).Nodup ∧
  (∀ r ∈ s.hotel.rooms,
    bookedCount s.customers r.room_number = if r.is_available then 0 else 1) ∧
  (∀ n : Nat, (∀ r ∈ s.hotel.rooms, r.room_number ≠ n) →
    bookedCount s.customers n = 0)

/-! ## Helper lemmas -/

theorem SEASON_MULTIPLIERS_pos (s : Season) : 0 < SEASON_MULTIPLIERS s := by
  cases s <;> norm_num [SEASON_MULTIPLIERS]

theorem findRoomIn_ok_number (rs : List Room) (n : Nat) (room : Room)
    (h : findRoomIn rs n = .ok room) : room.room_number = n := by
  induction rs with
  | nil => exact Except.noConfusion h
  | cons r rs ih =>
    unfold findRoomIn at h
    split at h
    next hc => cases h; exact hc
    next hc => exact ih h

theorem findRoomIn_append_left (l1 rest : List Room) (n : Nat)
    (hl1 : ∀ r ∈ l1, r.room_number ≠ n) :
    findRoomIn (l1 ++ rest) n = findRoomIn rest n := by
  induction l1 with
  | nil => rfl
  | cons r l1 ih =>
    rw [List.cons_append]
    show (if r.room_number = n then Except.ok r else findRoomIn (l1 ++ rest) n) = _
    rw [if_neg (hl1 r (List.mem_cons_self r l1))]
    exact ih fun x hx => hl1 x (List.mem_cons_of_mem r hx)

theorem findRoomIn_split (rs : List Room) (n : Nat) (room : Room)
    (h : findRoomIn rs n = .ok room) :
    ∃ l1 l2, rs = l1 ++ room :: l2 ∧ ∀ r ∈ l1, r.room_number ≠ n := by
  induction rs with
  | nil => exact Except.noConfusion h
  | cons r rs ih =>
    unfold findRoomIn at h
    split at h
    next hc =>
      cases h
      exact ⟨[], rs, rfl, by simp⟩
    next hc =>
      obtain ⟨l1, l2, hsplit, hl1⟩ := ih h
      refine ⟨r :: l1, l2, by rw [hsplit]; rfl, ?_⟩
      intro x hx
      rcases List.mem_cons.mp hx with hx | hx
      · exact hx ▸ hc
      · exact hl1 x hx

theorem updateRoomIn_append (l1 l2 : List Room) (room r2 : Room) (n : Nat)
    (hl1 : ∀ r ∈ l1, r.room_number ≠ n) (hroom : room.room_number = n) :
    updateRoomIn (l1 ++ room :: l2) n r2 = l1 ++ r2 :: l2 := by
  induction l1 with
  | nil =>
    show (if room.room_number = n then r2 :: l2 else _) = _
    rw [if_pos hroom]
    rfl
  | cons r l1 ih =>
    rw [List.cons_append]
    show (if r.room_number = n then r2 :: (l1 ++ room :: l2)
      else r :: updateRoomIn (l1 ++ room :: l2) n r2) = _
    rw [if_neg (hl1 r (List.mem_cons_self r l1))]
    rw [List.cons_append, ih fun x hx => hl1 x (List.mem_cons_of_mem r hx)]

theorem findRoomIn_updateRoomIn (rs : List Room) (n : Nat) (room r2 : Room)
    (h : findRoomIn rs n = .ok room) (h2 : r2.room_number = n) :
    findRoomIn (updateRoomIn rs n r2) n = .ok r2 := by
  obtain ⟨l1, l2, hsplit, hl1⟩ := findRoomIn_split rs n room h
  have hroom : room.room_number = n := findRoomIn_ok_number rs n room h
  rw [hsplit, updateRoomIn_append l1 l2 room r2 n hl1 hroom,
    findRoomIn_append_left l1 (r2 :: l2) n hl1]
  show (if r2.room_number = n then Except.ok r2 else _) = _
  rw [if_pos h2]

theorem pay_ok_false (c c2 : Customer) (x : ℚ)
    (hres : c.pay_for_booking x = .ok (c2, false)) : c2 = c := by
  unfold Customer.pay_for_booking at hres
  split at hres
  · exact Except.noConfusion hres
  · split at hres
    · simp at hres
    · simp only [Except.ok.injEq, Prod.mk.injEq] at hres
      exact hres.1.symm

/-! ## Claim theorems -/

/-- C3: `pay_for_booking(x)` with budget `b` succeeds for `0 < x ≤ b` with new
budget `b - x` and loyalty points increased by `⌊x / 100⌋`; fails leaving the
customer unchanged for `b < x`; and raises (`InvalidArgument`) for `x ≤ 0`. -/
theorem pay_for_booking_spec (c : Customer) (x : ℚ) :
    (x ≤ 0 → c.pay_for_booking x = .error "total_price must be positive") ∧
    (0 < x → x ≤ c.budget → c.pay_for_booking x =
      .ok ({ c with
              budget := c.budget - x,
              loyalty_points := c.loyalty_points + Int.floor (x / 100) },
            true)) ∧
    (0 < x → c.budget < x → c.pay_for_booking x = .ok (c, false)) := by
  refine ⟨fun h => ?_, fun h1 h2 => ?_, fun h1 h2 => ?_⟩
  · unfold Customer.pay_for_booking
    rw [if_pos h]
  · unfold Customer.pay_for_booking
    rw [if_neg (not_le.mpr h1), if_pos h2]
  · unfold Customer.pay_for_booking
    rw [if_neg (not_le.mpr h1), if_neg (not_le.mpr h2)]

/-- Witness for C3: all three branches at concrete inputs. -/
theorem pay_for_booking_spec_witness :
    (Customer.mk "gio" 500 [] 0).pay_for_booking 260 =
      .ok (Customer.mk "gio" 240 [] 2, true) ∧
    (Customer.mk "p" 50 [] 0).pay_for_booking 130 =
      .ok (Customer.mk "p" 50 [] 0, false) ∧
    (Customer.mk "gio" 500 [] 0).pay_for_booking 0 =
      .error "total_price must be positive" := by
  refine ⟨?_, ?_, ?_⟩
  · exact ((pay_for_booking_spec (Customer.mk "gio" 500 [] 0) 260).2.1
      (by norm_num) (by norm_num)).trans (by norm_num)
  · exact (pay_for_booking_spec (Customer.mk "p" 50 [] 0) 130).2.2
      (by norm_num) (by norm_num)
  · exact (pay_for_booking_spec (Customer.mk "gio" 500 [] 0) 0).1 le_rfl

/-- C6: `calculate_price` raises for `nights ≤ 0` and otherwise returns
`price_per_night * multiplier * nights`, linear in the nights. -/
theorem calculate_price_spec (r : Room) (season : Season) (nights : Int) :
    (nights ≤ 0 → r.calculate_price season nights =
      .error "nights must be positive") ∧
    (0 < nights → r.calculate_price season nights =
      .ok (r.price_per_night * SEASON_MULTIPLIERS season * (nights : ℚ))) := by
  refine ⟨fun h => ?_, fun h => ?_⟩
  · unfold Room.calculate_price
    rw [if_pos h]
  · unfold Room.calculate_price
    rw [if_neg (not_le.mpr h)]

/-- Witness for C6 at a concrete room, season and both sides of zero. -/
theorem calculate_price_spec_witness :
    (Room.mk 101 "Single" 100 true 1).calculate_price .summer 2 = .ok 260 ∧
    (Room.mk 101 "Single" 100 true 1).calculate_price .summer 0 =
      .error "nights must be positive" := by
  constructor
  · exact ((calculate_price_spec (Room.mk 101 "Single" 100 true 1) .summer 2).2
      (by norm_num)).trans (by norm_num [SEASON_MULTIPLIERS])
  · exact (calculate_price_spec (Room.mk 101 "Single" 100 true 1) .summer 0).1
      le_rfl

/-- C7: the month → season table (Jan/Feb and Dec winter, Mar–May spring,
Jun–Aug summer, Sep–Nov fall) and the four fixed multipliers. -/
theorem season_mapping_spec :
    get_current_season 1 = .winter ∧ get_current_season 2 = .winter ∧
    get_current_season 3 = .spring ∧ get_current_season 4 = .spring ∧
    get_current_season 5 = .spring ∧ get_current_season 6 = .summer ∧
    get_current_season 7 = .summer ∧ get_current_season 8 = .summer ∧
    get_current_season 9 = .fall ∧ get_current_season 10 = .fall ∧
    get_current_season 11 = .fall ∧ get_current_season 12 = .winter ∧
    SEASON_MULTIPLIERS .winter = 8/10 ∧ SEASON_MULTIPLIERS .spring = 1 ∧
    SEASON_MULTIPLIERS .summer = 13/10 ∧ SEASON_MULTIPLIERS .fall = 11/10 :=
  ⟨by decide, by decide, by decide, by decide, by decide, by decide, by decide,
   by decide, by decide, by decide, by decide, by decide, rfl, rfl, rfl, rfl⟩

/-- C8 counterexample: budget `0` is non-negative, yet construction fails —
`Customer.__init__` demands a strictly positive budget. -/
theorem customer_init_zero_budget_fails :
    Customer.init "gio" 0 = .error "budget must be positive" := by
  rfl

/-- C8 (amended): construction succeeds for a name that is non-empty after
trimming and a strictly positive budget, yielding zero loyalty points and an
empty booked-rooms list; and the budget stays non-negative across
`pay_for_booking`, the only operation that changes it. -/
theorem customer_init_spec (name : String) (budget : ℚ)
    (hname : strip name ≠ "") (hb : 0 < budget) :
    Customer.init name budget = .ok ⟨name, budget, [], 0⟩ ∧
    (∀ c : Customer, 0 ≤ c.budget → ∀ x c2 paid,
      c.pay_for_booking x = .ok (c2, paid) → 0 ≤ c2.budget) := by
  constructor
  · have hname1 : name ≠ "" := by
      intro h
      exact hname (by rw [h]; decide)
    unfold Customer.init
    rw [if_neg (by simp [hname1, hname]), if_neg (not_le.mpr hb)]
  · intro c hc x c2 paid hres
    unfold Customer.pay_for_booking at hres
    split at hres
    · exact Except.noConfusion hres
    · split at hres
      next hle =>
        simp only [Except.ok.injEq, Prod.mk.injEq] at hres
        obtain ⟨hc2, hpaid⟩ := hres
        rw [← hc2]
        exact sub_nonneg.mpr hle
      next hgt =>
        simp only [Except.ok.injEq, Prod.mk.injEq] at hres
        obtain ⟨hc2, hpaid⟩ := hres
        rw [← hc2]
        exact hc

/-- Witness for C8's amended theorem. -/
theorem customer_init_spec_witness :
    Customer.init "gio" 500 = .ok ⟨"gio", 500, [], 0⟩ :=
  (customer_init_spec "gio" 500 (by decide) (by norm_num)).1

/-- C10: `remove_room` deletes exactly the first occurrence of the matching
room, keeping the rest in order; from a list holding the room twice exactly one
occurrence survives. -/
theorem remove_room_first_occurrence (c : Customer) (room : Room)
    (l1 l2 : List Nat) (hsplit : c.booked_rooms = l1 ++ room.room_number :: l2)
    (hl1 : room.room_number ∉ l1) :
    c.remove_room room = .ok { c with booked_rooms := l1 ++ l2 } ∧
    (c.booked_rooms.count room.room_number = 2 →
      (l1 ++ l2).count room.room_number = 1) := by
  constructor
  · unfold Customer.remove_room
    rw [if_pos (by rw [hsplit]; exact List.mem_append_right l1 (List.mem_cons_self _ _))]
    rw [hsplit, List.erase_append_right (room.room_number :: l2) hl1]
    rw [List.erase_cons_head]
  · intro hcount
    rw [hsplit] at hcount
    rw [List.count_append] at hcount ⊢
    rw [List.count_cons_self] at hcount
    omega

/-- Witness for C10 at a concrete list holding the room twice. -/
theorem remove_room_first_occurrence_witness :
    (Customer.mk "gio" 500 [5, 101, 7, 101] 0).remove_room
      (Room.mk 101 "Single" 100 true 1) =
      .ok (Customer.mk "gio" 500 [5, 7, 101] 0) ∧
    ([5] ++ [7, 101] : List Nat).count 101 = 1 := by
  have h := remove_room_first_occurrence (Customer.mk "gio" 500 [5, 101, 7, 101] 0)
    (Room.mk 101 "Single" 100 true 1) [5] [7, 101] (by decide) (by decide)
  exact ⟨h.1.trans (by rfl), h.2 (by decide)⟩

/-- C1: booking an available, in-capacity room for positively many nights by a
customer who can afford the seasonally-adjusted total succeeds: it returns
`true`, flips the room's availability to `false`, appends exactly one entry to
the booking log, and appends the room to the customer's booked list.
(`0 < price_per_night` is the `Room` constructor invariant.) -/
theorem book_room_success (h : Hotel) (c : Customer) (n : Nat)
    (nights guests : Int) (season : Season) (time : Nat) (room : Room)
    (hfind : h.find_room n = .ok room) (hav : room.is_available = true)
    (hg1 : 0 < guests) (hg2 : guests ≤ room.max_guests) (hn : 0 < nights)
    (hp : 0 < room.price_per_night)
    (hb : room.price_per_night * SEASON_MULTIPLIERS season * (nights : ℚ) ≤
      c.budget) :
    ∃ h2 c2, h.book_room_for_customer c n nights guests season time =
        .ok (h2, c2, true) ∧
      h2.find_room n = .ok { room with is_available := false } ∧
      (∃ e, h2.bookings_log = h.bookings_log ++ [e]) ∧
      c2.booked_rooms = c.booked_rooms ++ [n] := by
  have htot : 0 < room.price_per_night * SEASON_MULTIPLIERS season * (nights : ℚ) :=
    mul_pos (mul_pos hp (SEASON_MULTIPLIERS_pos season)) (by exact_mod_cast hn)
  have hroomnum : room.room_number = n := findRoomIn_ok_number _ _ _ hfind
  unfold Hotel.book_room_for_customer
  rw [if_neg (not_le.mpr hn), if_neg (not_le.mpr hg1), hfind]
  simp only [hav]
  rw [if_neg (by simp), if_neg (not_lt.mpr hg2)]
  unfold Hotel.calculate_total_booking
  simp only [hfind]
  unfold Room.calculate_price
  rw [if_neg (not_le.mpr hn)]
  unfold Customer.pay_for_booking
  simp only []
  rw [if_neg (not_le.mpr htot), if_pos hb]
  unfold Room.book_room
  simp only [hav]
  rw [if_neg (by simp)]
  refine ⟨_, _, rfl, ?_, ?_, ?_⟩
  · show findRoomIn (updateRoomIn h.rooms room.room_number _) n = _
    rw [hroomnum]
    exact findRoomIn_updateRoomIn h.rooms n room _ hfind rfl
  · exact ⟨_, rfl⟩
  · show c.booked_rooms ++ [room.room_number] = c.booked_rooms ++ [n]
    rw [hroomnum]

theorem pay_ok_booked (c c2 : Customer) (x : ℚ) (paid : Bool)
    (hres : c.pay_for_booking x = .ok (c2, paid)) :
    c2.booked_rooms = c.booked_rooms := by
  unfold Customer.pay_for_booking at hres
  split at hres
  · exact Except.noConfusion hres
  · split at hres <;>
    · simp only [Except.ok.injEq, Prod.mk.injEq] at hres
      rw [← hres.1]

theorem book_false_state (h h2 : Hotel) (c c2 : Customer) (n : Nat)
    (nights guests : Int) (season : Season) (time : Nat)
    (hres : h.book_room_for_customer c n nights guests season time =
      .ok (h2, c2, false)) : h2 = h ∧ c2 = c := by
  unfold Hotel.book_room_for_customer at hres
  split at hres
  · exact Except.noConfusion hres
  split at hres
  · exact Except.noConfusion hres
  split at hres
  · exact Except.noConfusion hres
  next room hroom =>
    split at hres
    · simp only [Except.ok.injEq, Prod.mk.injEq] at hres
      exact ⟨hres.1.symm, hres.2.1.symm⟩
    split at hres
    · simp only [Except.ok.injEq, Prod.mk.injEq] at hres
      exact ⟨hres.1.symm, hres.2.1.symm⟩
    split at hres
    · exact Except.noConfusion hres
    next total htotal =>
      split at hres
      · exact Except.noConfusion hres
      next c2x paid hpay =>
        split at hres
        next hpaid =>
          simp only [Except.ok.injEq, Prod.mk.injEq] at hres
          subst hpaid
          exact ⟨hres.1.symm, hres.2.1.symm.trans (pay_ok_false c c2x total hpay)⟩
        next hpaid =>
          split at hres
          · exact Except.noConfusion hres
          · simp at hres

theorem book_ok_true_inv (h h2 : Hotel) (c c2 : Customer) (n : Nat)
    (nights guests : Int) (season : Season) (time : Nat)
    (hres : h.book_room_for_customer c n nights guests season time =
      .ok (h2, c2, true)) :
    ∃ room2 : Room, h2.find_room n = .ok room2 ∧ room2.room_number = n ∧
      room2.is_available = false ∧
      c2.booked_rooms = c.booked_rooms ++ [n] ∧
      h2.rooms = updateRoomIn h.rooms n room2 := by
  unfold Hotel.book_room_for_customer at hres
  split at hres
  · exact Except.noConfusion hres
  split at hres
  · exact Except.noConfusion hres
  split at hres
  · exact Except.noConfusion hres
  next room hroom =>
    split at hres
    · simp at hres
    split at hres
    · simp at hres
    split at hres
    · exact Except.noConfusion hres
    next total htotal =>
      split at hres
      · exact Except.noConfusion hres
      next c2x paid hpay =>
        split at hres
        · simp at hres
        next hpaid =>
          split at hres
          · exact Except.noConfusion hres
          next room2 hbook =>
            simp only [Except.ok.injEq, Prod.mk.injEq] at hres
            obtain ⟨hh2, hc2, -⟩ := hres
            have hnum : room.room_number = n := findRoomIn_ok_number _ _ _ hroom
            have hroom2 : room2 = { room with is_available := false } := by
              unfold Room.book_room at hbook
              split at hbook
              · exact Except.noConfusion hbook
              · simp only [Except.ok.injEq] at hbook
                exact hbook.symm
            have hnum2 : room2.room_number = n := by rw [hroom2]; exact hnum
            refine ⟨room2, ?_, hnum2, by rw [hroom2], ?_, ?_⟩
            · rw [← hh2]
              show findRoomIn (updateRoomIn h.rooms room.room_number room2) n = _
              rw [hnum]
              exact findRoomIn_updateRoomIn h.rooms n room room2 hroom hnum2
            · rw [← hc2]
              show c2x.booked_rooms ++ [room2.room_number] = c.booked_rooms ++ [n]
              rw [hnum2, pay_ok_booked c c2x total paid hpay]
            · rw [← hh2]
              show updateRoomIn h.rooms room.room_number room2 = _
              rw [hnum]

/-- C2: whenever the booking transaction returns `false` (room unavailable,
capacity exceeded, or insufficient budget), nothing changed: the hotel's rooms
(hence every availability flag) and booking log, and the customer's budget,
loyalty points and booked-rooms list are exactly as before the call. -/
theorem book_room_false_no_state_change (h h2 : Hotel) (c c2 : Customer)
    (n : Nat) (nights guests : Int) (season : Season) (time : Nat)
    (hres : h.book_room_for_customer c n nights guests season time =
      .ok (h2, c2, false)) :
    h2.rooms = h.rooms ∧ h2.bookings_log = h.bookings_log ∧
    c2.budget = c.budget ∧ c2.loyalty_points = c.loyalty_points ∧
    c2.booked_rooms = c.booked_rooms := by
  obtain ⟨hh, hc⟩ := book_false_state h h2 c c2 n nights guests season time hres
  subst hh
  subst hc
  exact ⟨rfl, rfl, rfl, rfl, rfl⟩

/-- Witness for C2: an over-capacity request leaves the state untouched. -/
theorem book_room_false_no_state_change_witness :
    ((Hotel.mk "H" [⟨101, "Single", 100, true, 1⟩] []).book_room_for_customer
        (Customer.mk "gio" 500 [] 0) 101 2 2 .summer 7 =
      .ok (Hotel.mk "H" [⟨101, "Single", 100, true, 1⟩] [],
        Customer.mk "gio" 500 [] 0, false)) ∧
    (Customer.mk "gio" 500 [] 0).budget = (Customer.mk "gio" 500 [] 0).budget :=
  ⟨by rfl,
   (book_room_false_no_state_change
      (Hotel.mk "H" [⟨101, "Single", 100, true, 1⟩] [])
      (Hotel.mk "H" [⟨101, "Single", 100, true, 1⟩] [])
      (Customer.mk "gio" 500 [] 0) (Customer.mk "gio" 500 [] 0)
      101 2 2 .summer 7 (by rfl)).2.2.1⟩

/-- C5: after a successful booking, a second booking request for the same room
with valid arguments returns `false` (no exception is raised: the transaction
answers `.ok` with result `false`, and the state is unchanged). -/
theorem second_booking_false (h h2 : Hotel) (c c2 : Customer) (n : Nat)
    (nights guests nights2 guests2 : Int) (season season2 : Season)
    (time time2 : Nat)
    (hres : h.book_room_for_customer c n nights guests season time =
      .ok (h2, c2, true))
    (hn2 : 0 < nights2) (hg2 : 0 < guests2) :
    h2.book_room_for_customer c2 n nights2 guests2 season2 time2 =
      .ok (h2, c2, false) := by
  obtain ⟨room2, hfind2, hnum2, hav2, hbooked, hrooms⟩ :=
    book_ok_true_inv h h2 c c2 n nights guests season time hres
  unfold Hotel.book_room_for_customer
  rw [if_neg (not_le.mpr hn2), if_neg (not_le.mpr hg2)]
  simp only [hfind2]
  rw [hav2, if_pos rfl]

/-- C4: after a successful booking, cancelling that room number succeeds,
restores the room's availability to `true`, removes the room from the
customer's booked list, and leaves the customer's budget and loyalty points
exactly unchanged (no refund, no loyalty reversal). -/
theorem cancel_after_booking (h h2 : Hotel) (c c2 : Customer) (n : Nat)
    (nights guests : Int) (season : Season) (time : Nat)
    (hres : h.book_room_for_customer c n nights guests season time =
      .ok (h2, c2, true)) :
    ∃ h3 c3, h2.cancel_booking c2 n = .ok (h3, c3) ∧
      (∃ r3 : Room, h3.find_room n = .ok r3 ∧ r3.is_available = true) ∧
      c3.budget = c2.budget ∧ c3.loyalty_points = c2.loyalty_points ∧
      c3.booked_rooms = c2.booked_rooms.erase n ∧
      (n ∉ c.booked_rooms → c3.booked_rooms = c.booked_rooms) := by
  obtain ⟨room2, hfind2, hnum2, hav2, hbooked, hrooms⟩ :=
    book_ok_true_inv h h2 c c2 n nights guests season time hres
  have hmem : n ∈ c2.booked_rooms := by
    rw [hbooked]
    exact List.mem_append_right _ (List.mem_cons_self _ _)
  have hmem2 : room2.room_number ∈ c2.booked_rooms := by
    rw [hnum2]
    exact hmem
  unfold Hotel.cancel_booking
  simp only [hfind2]
  rw [if_pos hmem2]
  unfold Customer.remove_room
  rw [if_pos hmem2]
  refine ⟨_, _, rfl, ?_, rfl, rfl, ?_, ?_⟩
  · refine ⟨room2.release_room, ?_, rfl⟩
    show findRoomIn (updateRoomIn h2.rooms room2.room_number room2.release_room)
      n = _
    rw [hnum2]
    exact findRoomIn_updateRoomIn h2.rooms n room2 room2.release_room hfind2
      hnum2
  · show c2.booked_rooms.erase room2.room_number = c2.booked_rooms.erase n
    rw [hnum2]
  · intro hnot
    show c2.booked_rooms.erase room2.room_number = c.booked_rooms
    rw [hnum2, hbooked, List.erase_append_right [n] hnot, List.erase_cons_head,
      List.append_nil]

/-- Concrete evaluation of a successful booking (the spec's summer scenario),
shared by the witnesses below. -/
theorem book_eval_example :
    (Hotel.mk "H" [⟨101, "Single", 100, true, 1⟩] []).book_room_for_customer
        (Customer.mk "gio" 500 [] 0) 101 2 1 .summer 7 =
      .ok (Hotel.mk "H" [⟨101, "Single", 100, false, 1⟩]
            [⟨7, "gio", 101, "Single", 2, 260, .summer⟩],
           Customer.mk "gio" 240 [101] 2, true) := by
  norm_num [Hotel.book_room_for_customer, Hotel.find_room, findRoomIn,
    Hotel.calculate_total_booking, Room.calculate_price,
    Customer.pay_for_booking, Room.book_room, Hotel.set_room, updateRoomIn,
    Hotel.log_booking, Customer.add_room, round2, SEASON_MULTIPLIERS]

/-- Witness for C1: the concrete summer scenario satisfies every hypothesis. -/
theorem book_room_success_witness :
    ∃ h2 c2, (Hotel.mk "H" [⟨101, "Single", 100, true, 1⟩] []).book_room_for_customer
        (Customer.mk "gio" 500 [] 0) 101 2 1 .summer 7 = .ok (h2, c2, true) ∧
      h2.find_room 101 = .ok ⟨101, "Single", 100, false, 1⟩ ∧
      (∃ e, h2.bookings_log = ([] : List LogEntry) ++ [e]) ∧
      c2.booked_rooms = ([] : List Nat) ++ [101] :=
  book_room_success (Hotel.mk "H" [⟨101, "Single", 100, true, 1⟩] [])
    (Customer.mk "gio" 500 [] 0) 101 2 1 .summer 7 ⟨101, "Single", 100, true, 1⟩
    (by rfl) rfl (by norm_num) (by norm_num) (by norm_num) (by norm_num)
    (by norm_num [SEASON_MULTIPLIERS])

/-- Witness for C5: rebooking room 101 right after the successful booking. -/
theorem second_booking_false_witness :
    (Hotel.mk "H" [⟨101, "Single", 100, false, 1⟩]
        [⟨7, "gio", 101, "Single", 2, 260, .summer⟩]).book_room_for_customer
        (Customer.mk "gio" 240 [101] 2) 101 3 1 .winter 9 =
      .ok (Hotel.mk "H" [⟨101, "Single", 100, false, 1⟩]
            [⟨7, "gio", 101, "Single", 2, 260, .summer⟩],
           Customer.mk "gio" 240 [101] 2, false) :=
  second_booking_false (Hotel.mk "H" [⟨101, "Single", 100, true, 1⟩] []) _
    (Customer.mk "gio" 500 [] 0) _ 101 2 1 3 1 .summer .winter 7 9
    book_eval_example (by norm_num) (by norm_num)

/-- Witness for C4: cancelling room 101 right after the successful booking. -/
theorem cancel_after_booking_witness :
    ∃ h3 c3, (Hotel.mk "H" [⟨101, "Single", 100, false, 1⟩]
        [⟨7, "gio", 101, "Single", 2, 260, .summer⟩]).cancel_booking
        (Customer.mk "gio" 240 [101] 2) 101 = .ok (h3, c3) ∧
      (∃ r3 : Room, h3.find_room 101 = .ok r3 ∧ r3.is_available = true) ∧
      c3.budget = (Customer.mk "gio" 240 [101] 2).budget ∧
      c3.loyalty_points = (Customer.mk "gio" 240 [101] 2).loyalty_points ∧
      c3.booked_rooms = ([101] : List Nat).erase 101 ∧
      (101 ∉ ([] : List Nat) → c3.booked_rooms = ([] : List Nat)) :=
  cancel_after_booking (Hotel.mk "H" [⟨101, "Single", 100, true, 1⟩] []) _
    (Customer.mk "gio" 500 [] 0) _ 101 2 1 .summer 7 book_eval_example

theorem bookedCount_cons (c : Customer) (cs : List Customer) (m : Nat) :
    bookedCount (c :: cs) m = c.booked_rooms.count m + bookedCount cs m := by
  simp [bookedCount]

theorem set_get?_self (l : List Customer) (i : Nat) (c : Customer)
    (h : l.get? i = some c) : l.set i c = l := by
  induction l generalizing i with
  | nil => simp at h
  | cons d rest ih =>
    cases i with
    | zero =>
      simp at h
      rw [h]
      rfl
    | succ i =>
      rw [List.get?_cons_succ] at h
      rw [List.set_cons_succ, ih i h]

theorem bookedCount_set (customers : List Customer) (ci : Nat)
    (c c2 : Customer) (hget : customers.get? ci = some c) (m : Nat) :
    bookedCount (customers.set ci c2) m + c.booked_rooms.count m =
      bookedCount customers m + c2.booked_rooms.count m := by
  induction customers generalizing ci with
  | nil => simp at hget
  | cons d rest ih =>
    cases ci with
    | zero =>
      simp at hget
      subst hget
      rw [List.set_cons_zero, bookedCount_cons, bookedCount_cons]
      omega
    | succ ci =>
      rw [List.get?_cons_succ] at hget
      have hrec := ih ci hget
      rw [List.set_cons_succ, bookedCount_cons, bookedCount_cons]
      omega

theorem count_le_bookedCount (customers : List Customer) (c : Customer)
    (hc : c ∈ customers) (m : Nat) :
    c.booked_rooms.count m ≤ bookedCount customers m := by
  induction customers with
  | nil => simp at hc
  | cons d rest ih =>
    rw [bookedCount_cons]
    rcases List.mem_cons.mp hc with h | h
    · rw [h]
      omega
    · have := ih h
      omega

theorem findRoomIn_mem (rs : List Room) (n : Nat) (room : Room)
    (h : findRoomIn rs n = .ok room) : room ∈ rs := by
  obtain ⟨l1, l2, hsplit, -⟩ := findRoomIn_split rs n room h
  rw [hsplit]
  exact List.mem_append_right l1 (List.mem_cons_self _ _)

theorem map_number_updateRoomIn (rs : List Room) (n : Nat) (room r2 : Room)
    (hfind : findRoomIn rs n = .ok room) (h2 : r2.room_number = n) :
    (updateRoomIn rs n r2).map Room.room_number = rs.map Room.room_number := by
  obtain ⟨l1, l2, hsplit, hl1⟩ := findRoomIn_split rs n room hfind
  have hroom : room.room_number = n := findRoomIn_ok_number rs n room hfind
  rw [hsplit, updateRoomIn_append l1 l2 room r2 n hl1 hroom]
  simp [h2, hroom]

theorem self_mem_updateRoomIn (rs : List Room) (n : Nat) (room r2 : Room)
    (hfind : findRoomIn rs n = .ok room) : r2 ∈ updateRoomIn rs n r2 := by
  obtain ⟨l1, l2, hsplit, hl1⟩ := findRoomIn_split rs n room hfind
  have hroom : room.room_number = n := findRoomIn_ok_number rs n room hfind
  rw [hsplit, updateRoomIn_append l1 l2 room r2 n hl1 hroom]
  exact List.mem_append_right l1 (List.mem_cons_self _ _)

theorem mem_updateRoomIn (rs : List Room) (n : Nat) (room r2 r : Room)
    (hnodup : (rs.map Room.room_number).Nodup)
    (hfind : findRoomIn rs n = .ok room)
    (hr : r ∈ updateRoomIn rs n r2) :
    r = r2 ∨ (r ∈ rs ∧ r.room_number ≠ n) := by
  obtain ⟨l1, l2, hsplit, hl1⟩ := findRoomIn_split rs n room hfind
  have hroom : room.room_number = n := findRoomIn_ok_number rs n room hfind
  rw [hsplit, updateRoomIn_append l1 l2 room r2 n hl1 hroom] at hr
  have hl2 : ∀ x ∈ l2, x.room_number ≠ n := by
    intro x hx
    rw [hsplit] at hnodup
    simp only [List.map_append, List.map_cons, List.nodup_append] at hnodup
    have := hnodup.2.1
    rw [List.nodup_cons] at this
    intro hxn
    apply this.1
    rw [hroom, ← hxn]
    exact List.mem_map_of_mem _ hx
  rcases List.mem_append.mp hr with hmem | hmem
  · exact Or.inr ⟨by rw [hsplit]; exact List.mem_append_left (room :: l2) hmem,
      hl1 r hmem⟩
  · rcases List.mem_cons.mp hmem with hmem | hmem
    · exact Or.inl hmem
    · exact Or.inr ⟨by
        rw [hsplit]
        exact List.mem_append_right l1 (List.mem_cons_of_mem room hmem),
        hl2 r hmem⟩

theorem mem_updateRoomIn_of_ne (rs : List Room) (n : Nat) (r2 r : Room)
    (hr : r ∈ rs) (hne : r.room_number ≠ n) : r ∈ updateRoomIn rs n r2 := by
  induction rs with
  | nil => simp at hr
  | cons d rest ih =>
    unfold updateRoomIn
    rcases List.mem_cons.mp hr with h | h
    · subst h
      rw [if_neg hne]
      exact List.mem_cons_self _ _
    · split
      · exact List.mem_cons_of_mem _ h
      · exact List.mem_cons_of_mem _ (ih h)

theorem room_init_ok_inv (num : Nat) (ty : String) (price : ℚ) (mg : Int)
    (room : Room) (hres : Room.init num ty price mg = .ok room) :
    room = ⟨num, ty, price, true, mg⟩ := by
  unfold Room.init at hres
  split at hres
  · exact Except.noConfusion hres
  split at hres
  · exact Except.noConfusion hres
  split at hres
  · exact Except.noConfusion hres
  · simp only [Except.ok.injEq] at hres
    exact hres.symm

theorem add_room_ok_inv (h h2 : Hotel) (room : Room)
    (hres : h.add_room room = .ok h2) :
    h2.rooms = h.rooms ++ [room] ∧ h2.name = h.name ∧
    h2.bookings_log = h.bookings_log ∧
    ∀ r ∈ h.rooms, r.room_number ≠ room.room_number := by
  unfold Hotel.add_room at hres
  split at hres
  · exact Except.noConfusion hres
  next hany =>
    simp only [Except.ok.injEq] at hres
    refine ⟨by rw [← hres], by rw [← hres], by rw [← hres], ?_⟩
    intro r hr
    simp only [List.any_eq_true, beq_iff_eq] at hany
    intro hcon
    exact hany ⟨r, hr, hcon⟩

theorem cancel_ok_inv (h h2 : Hotel) (c c2 : Customer) (n : Nat)
    (hres : h.cancel_booking c n = .ok (h2, c2)) :
    ∃ room, h.find_room n = .ok room ∧ room.room_number = n ∧
      n ∈ c.booked_rooms ∧
      h2.rooms = updateRoomIn h.rooms n room.release_room ∧
      h2.bookings_log = h.bookings_log ∧
      c2 = { c with booked_rooms := c.booked_rooms.erase n } := by
  unfold Hotel.cancel_booking at hres
  split at hres
  · exact Except.noConfusion hres
  next room hroom =>
    split at hres
    next hmem =>
      unfold Customer.remove_room at hres
      rw [if_pos hmem] at hres
      simp only [] at hres
      simp only [Except.ok.injEq, Prod.mk.injEq] at hres
      obtain ⟨hh2, hc2⟩ := hres
      have hnum : room.room_number = n := findRoomIn_ok_number _ _ _ hroom
      refine ⟨room, hroom, hnum, by rw [← hnum]; exact hmem, ?_, ?_, ?_⟩
      · rw [← hh2]
        show updateRoomIn h.rooms room.room_number _ = _
        rw [hnum]
      · rw [← hh2]
        rfl
      · rw [← hc2, hnum]
    · exact Except.noConfusion hres

theorem book_ok_true_inv_full (h h2 : Hotel) (c c2 : Customer) (n : Nat)
    (nights guests : Int) (season : Season) (time : Nat)
    (hres : h.book_room_for_customer c n nights guests season time =
      .ok (h2, c2, true)) :
    ∃ room, h.find_room n = .ok room ∧ room.is_available = true ∧
      c2.booked_rooms = c.booked_rooms ++ [n] ∧
      h2.rooms = updateRoomIn h.rooms n { room with is_available := false } := by
  unfold Hotel.book_room_for_customer at hres
  split at hres
  · exact Except.noConfusion hres
  split at hres
  · exact Except.noConfusion hres
  split at hres
  · exact Except.noConfusion hres
  next room hroom =>
    split at hres
    · simp at hres
    next havail =>
      split at hres
      · simp at hres
      split at hres
      · exact Except.noConfusion hres
      next total htotal =>
        split at hres
        · exact Except.noConfusion hres
        next c2x paid hpay =>
          split at hres
          · simp at hres
          next hpaid =>
            split at hres
            · exact Except.noConfusion hres
            next room2 hbook =>
              simp only [Except.ok.injEq, Prod.mk.injEq] at hres
              obtain ⟨hh2, hc2, -⟩ := hres
              have hnum : room.room_number = n :=
                findRoomIn_ok_number _ _ _ hroom
              have hav : room.is_available = true := by
                revert havail
                cases room.is_available <;> simp
              have hroom2 : room2 = { room with is_available := false } := by
                unfold Room.book_room at hbook
                split at hbook
                · exact Except.noConfusion hbook
                · simp only [Except.ok.injEq] at hbook
                  exact hbook.symm
              refine ⟨room, hroom, hav, ?_, ?_⟩
              · rw [← hc2]
                show c2x.booked_rooms ++ [room2.room_number] =
                  c.booked_rooms ++ [n]
                rw [hroom2, pay_ok_booked c c2x total paid hpay]
                show c.booked_rooms ++ [room.room_number] = _
                rw [hnum]
              · rw [← hh2]
                show updateRoomIn h.rooms room.room_number room2 = _
                rw [hroom2, hnum]

theorem sysInv_addRoom (s : SysState) (num : Nat) (ty : String) (price : ℚ)
    (mg : Int) (hinv : SysInv s) :
    SysInv (applyOp s (.addRoom num ty price mg)) := by
  obtain ⟨hnodup, hcount, habsent⟩ := hinv
  show SysInv (match Room.init num ty price mg with
    | .error _ => s
    | .ok room =>
      match s.hotel.add_room room with
      | .error _ => s
      | .ok h2 => { s with hotel := h2 })
  split
  · exact ⟨hnodup, hcount, habsent⟩
  next room hinit =>
    split
    · exact ⟨hnodup, hcount, habsent⟩
    next h2 hadd =>
      obtain ⟨hrooms2, -, -, hfresh⟩ := add_room_ok_inv s.hotel h2 room hadd
      have hroomval := room_init_ok_inv num ty price mg room hinit
      have hnumval : room.room_number = num := by rw [hroomval]
      have havail : room.is_available = true := by rw [hroomval]
      refine ⟨?_, ?_, ?_⟩
      · show (h2.rooms.map Room.room_number).Nodup
        rw [hrooms2, List.map_append, List.nodup_append]
        refine ⟨hnodup, List.nodup_singleton _, ?_⟩
        intro a ha hb
        simp only [List.map_cons, List.map_nil, List.mem_singleton] at hb
        obtain ⟨r, hr, hrn⟩ := List.mem_map.mp ha
        exact hfresh r hr (by rw [hrn, ← hb])
      · intro r hr
        show bookedCount s.customers r.room_number = _
        rw [hrooms2] at hr
        rcases List.mem_append.mp hr with hmem | hmem
        · exact hcount r hmem
        · have heq : r = room := by simpa using hmem
          subst heq
          rw [havail]
          simp only [if_true]
          rw [hnumval]
          refine habsent num (fun r2 hr2 => ?_)
          rw [← hnumval]
          exact hfresh r2 hr2
      · intro m hm
        refine habsent m (fun r hr => hm r ?_)
        show r ∈ h2.rooms
        rw [hrooms2]
        exact List.mem_append_left _ hr

theorem sysInv_book (s : SysState) (ci n : Nat) (nights guests : Int)
    (season : Season) (time : Nat) (hinv : SysInv s) :
    SysInv (applyOp s (.book ci n nights guests season time)) := by
  obtain ⟨hnodup, hcount, habsent⟩ := hinv
  show SysInv (match s.customers.get? ci with
    | none => s
    | some c =>
      match s.hotel.book_room_for_customer c n nights guests season time with
      | .error _ => s
      | .ok (h2, c2, _) => ⟨h2, s.customers.set ci c2⟩)
  split
  · exact ⟨hnodup, hcount, habsent⟩
  next c hget =>
    split
    · exact ⟨hnodup, hcount, habsent⟩
    next h2 c2 res hbook =>
      cases res with
      | false =>
        obtain ⟨hh, hc⟩ := book_false_state s.hotel h2 c c2 n nights guests
          season time hbook
        rw [hh, hc, set_get?_self s.customers ci c hget]
        exact ⟨hnodup, hcount, habsent⟩
      | true =>
        obtain ⟨room, hroom, hav, hbooked, hrooms2⟩ :=
          book_ok_true_inv_full s.hotel h2 c c2 n nights guests season time
            hbook
        have hnum : room.room_number = n := findRoomIn_ok_number _ _ _ hroom
        have hmem_room : room ∈ s.hotel.rooms := findRoomIn_mem _ _ _ hroom
        have hzero : bookedCount s.customers n = 0 := by
          have hx := hcount room hmem_room
          rw [hav, hnum] at hx
          simpa using hx
        have hset : ∀ m, bookedCount (s.customers.set ci c2) m =
            bookedCount s.customers m + List.count m [n] := by
          intro m
          have h1 := bookedCount_set s.customers ci c c2 hget m
          rw [hbooked, List.count_append] at h1
          omega
        refine ⟨?_, ?_, ?_⟩
        · show (h2.rooms.map Room.room_number).Nodup
          rw [hrooms2, map_number_updateRoomIn s.hotel.rooms n room
            { room with is_available := false } hroom hnum]
          exact hnodup
        · intro r hr
          replace hr : r ∈ h2.rooms := hr
          rw [hrooms2] at hr
          rcases mem_updateRoomIn s.hotel.rooms n room _ r hnodup hroom hr with
            heq | ⟨hmem, hne⟩
          · subst heq
            show bookedCount (s.customers.set ci c2) room.room_number =
              if false then 0 else 1
            rw [hnum, hset n, hzero]
            simp
          · show bookedCount (s.customers.set ci c2) r.room_number = _
            rw [hset r.room_number]
            have hc0 : List.count r.room_number [n] = 0 := by
              simp [List.count_singleton']
              omega
            rw [hc0, Nat.add_zero]
            exact hcount r hmem
        · intro m hm
          by_cases hmn : m = n
          · subst hmn
            exfalso
            have hself : ({ room with is_available := false } : Room) ∈
                h2.rooms := by
              rw [hrooms2]
              exact self_mem_updateRoomIn s.hotel.rooms m room _ hroom
            exact hm _ hself hnum
          · show bookedCount (s.customers.set ci c2) m = 0
            rw [hset m]
            have hc0 : List.count m [n] = 0 := by
              simp [List.count_singleton']
              omega
            rw [hc0, Nat.add_zero]
            refine habsent m (fun r hr => ?_)
            by_cases hrn : r.room_number = n
            · rw [hrn]
              exact fun hcon => hmn hcon.symm
            · exact hm r (by
                show r ∈ h2.rooms
                rw [hrooms2]
                exact mem_updateRoomIn_of_ne _ _ _ _ hr hrn)

theorem sysInv_cancel (s : SysState) (ci n : Nat) (hinv : SysInv s) :
    SysInv (applyOp s (.cancel ci n)) := by
  obtain ⟨hnodup, hcount, habsent⟩ := hinv
  show SysInv (match s.customers.get? ci with
    | none => s
    | some c =>
      match s.hotel.cancel_booking c n with
      | .error _ => s
      | .ok (h2, c2) => ⟨h2, s.customers.set ci c2⟩)
  split
  · exact ⟨hnodup, hcount, habsent⟩
  next c hget =>
    split
    · exact ⟨hnodup, hcount, habsent⟩
    next h2 c2 hcancel =>
      obtain ⟨room, hroom, hnum, hmem_c, hrooms2, -, hc2⟩ :=
        cancel_ok_inv s.hotel h2 c c2 n hcancel
      have hmem_room : room ∈ s.hotel.rooms := findRoomIn_mem _ _ _ hroom
      have hcmem : c ∈ s.customers := List.get?_mem hget
      have hge1 : 1 ≤ bookedCount s.customers n := by
        have h1 : 0 < c.booked_rooms.count n := List.count_pos_iff.mpr hmem_c
        have h2x := count_le_bookedCount s.customers c hcmem n
        omega
      have havf : room.is_available = false := by
        by_contra hcon
        have htrue : room.is_available = true := by
          revert hcon
          cases room.is_available <;> simp
        have hx := hcount room hmem_room
        rw [htrue, hnum] at hx
        simp at hx
        omega
      have hone : bookedCount s.customers n = 1 := by
        have hx := hcount room hmem_room
        rw [havf, hnum] at hx
        simpa using hx
      have hc2b : c2.booked_rooms = c.booked_rooms.erase n := by rw [hc2]
      have hset : ∀ m, bookedCount (s.customers.set ci c2) m =
          if m = n then bookedCount s.customers m - 1
          else bookedCount s.customers m := by
        intro m
        have h1 := bookedCount_set s.customers ci c c2 hget m
        rw [hc2b] at h1
        by_cases hmn : m = n
        · subst hmn
          rw [if_pos rfl]
          have he := List.count_erase_self m c.booked_rooms
          have hpos : 0 < c.booked_rooms.count m := List.count_pos_iff.mpr hmem_c
          omega
        · rw [if_neg hmn]
          have he := List.count_erase_of_ne hmn c.booked_rooms
          omega
      refine ⟨?_, ?_, ?_⟩
      · show (h2.rooms.map Room.room_number).Nodup
        rw [hrooms2, map_number_updateRoomIn s.hotel.rooms n room
          room.release_room hroom hnum]
        exact hnodup
      · intro r hr
        replace hr : r ∈ h2.rooms := hr
        rw [hrooms2] at hr
        rcases mem_updateRoomIn s.hotel.rooms n room room.release_room r hnodup
          hroom hr with heq | ⟨hmem, hne⟩
        · subst heq
          show bookedCount (s.customers.set ci c2) room.room_number =
            if true then 0 else 1
          rw [hnum, hset n, if_pos rfl, hone]
          simp
        · show bookedCount (s.customers.set ci c2) r.room_number = _
          rw [hset r.room_number, if_neg hne]
          exact hcount r hmem
      · intro m hm
        by_cases hmn : m = n
        · subst hmn
          exfalso
          have hself : room.release_room ∈ h2.rooms := by
            rw [hrooms2]
            exact self_mem_updateRoomIn s.hotel.rooms m room room.release_room
              hroom
          exact hm _ hself hnum
        · show bookedCount (s.customers.set ci c2) m = 0
          rw [hset m, if_neg hmn]
          refine habsent m (fun r hr => ?_)
          by_cases hrn : r.room_number = n
          · rw [hrn]
            exact fun hcon => hmn hcon.symm
          · exact hm r (by
              show r ∈ h2.rooms
              rw [hrooms2]
              exact mem_updateRoomIn_of_ne _ _ _ _ hr hrn)

theorem sysInv_applyOp (s : SysState) (op : Op) (hinv : SysInv s) :
    SysInv (applyOp s op) := by
  cases op with
  | addRoom num ty price mg => exact sysInv_addRoom s num ty price mg hinv
  | book ci n nights guests season time =>
    exact sysInv_book s ci n nights guests season time hinv
  | cancel ci n => exact sysInv_cancel s ci n hinv

theorem sysInv_runOps (s : SysState) (ops : List Op) (hinv : SysInv s) :
    SysInv (runOps s ops) := by
  induction ops generalizing s with
  | nil => exact hinv
  | cons op ops ih => exact ih (applyOp s op) (sysInv_applyOp s op hinv)

theorem bookedCount_fresh (cs : List (String × ℚ)) (m : Nat) :
    bookedCount (cs.map freshCustomer) m = 0 := by
  induction cs with
  | nil => rfl
  | cons p rest ih =>
    rw [List.map_cons, bookedCount_cons, ih]
    rfl

theorem sysInv_init (hotel_name : String) (cs : List (String × ℚ)) :
    SysInv (initState hotel_name cs) := by
  refine ⟨by simp [initState], ?_, ?_⟩
  · intro r hr
    simp [initState] at hr
  · intro m hm
    exact bookedCount_fresh cs m

/-- C9: in every state reachable from a freshly constructed hotel and freshly
constructed customers by any sequence of the public operations (adding rooms,
booking, cancelling), every room that appears in some customer's booked-rooms
list has its availability flag set to `false`. -/
theorem booked_room_unavailable (hotel_name : String) (cs : List (String × ℚ))
    (ops : List Op) (c : Customer) (n : Nat) (r : Room)
    (hc : c ∈ (runOps (initState hotel_name cs) ops).customers)
    (hn : n ∈ c.booked_rooms)
    (hr : r ∈ (runOps (initState hotel_name cs) ops).hotel.rooms)
    (hrn : r.room_number = n) : r.is_available = false := by
  obtain ⟨-, hcount, -⟩ := sysInv_runOps (initState hotel_name cs) ops
    (sysInv_init hotel_name cs)
  have h1 : 0 < c.booked_rooms.count n := List.count_pos_iff.mpr hn
  have h2 := count_le_bookedCount _ c hc n
  have hx := hcount r hr
  rw [hrn] at hx
  cases hav : r.is_available with
  | false => rfl
  | true =>
    rw [hav] at hx
    simp at hx
    omega

/-- Concrete evaluation of an add-room / book run, for the witness below. -/
theorem runOps_eval_example :
    runOps (initState "H" [("gio", 500)])
      [.addRoom 101 "Single" 100 1, .book 0 101 2 1 .summer 7] =
      ⟨⟨"H", [⟨101, "Single", 100, false, 1⟩],
        [⟨7, "gio", 101, "Single", 2, 260, .summer⟩]⟩,
       [⟨"gio", 240, [101], 2⟩]⟩ := by
  norm_num [runOps, applyOp, initState, freshCustomer, Room.init,
    Hotel.add_room, Hotel.book_room_for_customer, Hotel.find_room, findRoomIn,
    Hotel.calculate_total_booking, Room.calculate_price,
    Customer.pay_for_booking, Room.book_room, Hotel.set_room, updateRoomIn,
    Hotel.log_booking, Customer.add_room, round2, SEASON_MULTIPLIERS]

/-- Witness for C9: after adding room 101 and booking it, room 101 sits in
gio's booked list and is indeed unavailable. -/
theorem booked_room_unavailable_witness :
    (Room.mk 101 "Single" 100 false 1).is_available = false :=
  booked_room_unavailable "H" [("gio", 500)]
    [.addRoom 101 "Single" 100 1, .book 0 101 2 1 .summer 7]
    (Customer.mk "gio" 240 [101] 2) 101 (Room.mk 101 "Single" 100 false 1)
    (by rw [runOps_eval_example]; exact List.mem_singleton.mpr rfl)
    (by decide)
    (by rw [runOps_eval_example]; exact List.mem_singleton.mpr rfl)
    rfl
